import Mathlib

/-!
Verification of the literature-aggregation pipeline of the bioncolab
repository: identifier normalizers, the multi-source search route
(dedupe + rank + aggregation), the PubMed single-paper route, and the
synthesis context builder.  Each definition is a shallow embedding of the
corresponding TypeScript function; network calls are modelled by passing
their outcomes (`Except String _`) as explicit arguments.  JavaScript
string/number truthiness is modelled explicitly where the source relies
on it.
-/

set_option maxRecDepth 4096

/-- JS `a || b` on strings: empty string is falsy. -/
def orStr (a b : String) : String := if a = "" then b else a

/-- JS truthiness of an optional string (`undefined` and `""` are falsy). -/
def strTruthy : Option String → Bool
  | none => false
  | some s => s != ""

/-- JS truthiness of an optional number (`undefined` and `0` are falsy). -/
def intTruthy : Option Int → Bool
  | none => false
  | some v => v != 0

/-- Drop a literal sequence of characters from the front, or fail. -/
def dropLeading : List Char → List Char → Option (List Char)
  | [], cs => some cs
  | _ :: _, [] => none
  | p :: ps, c :: cs => if p = c then dropLeading ps cs else none

/-- Trim ASCII whitespace from both ends (models `String.prototype.trim`). -/
def trimChars (cs : List Char) : List Char :=
  ((cs.dropWhile Char.isWhitespace).reverse.dropWhile Char.isWhitespace).reverse

/-- Model of `String.prototype.trim` as a total function on our strings. -/
def jsTrim (s : String) : String := String.mk (trimChars s.data)

/-- JS regex `\w` character class: `[A-Za-z0-9_]`. -/
def isWordCharB (c : Char) : Bool := c.isAlphanum || c == '_'

/-- Replace every run of whitespace by a single space (regex `/[\s]+/g → ' '`). -/
def squeezeWS : List Char → List Char
  | [] => []
  | c :: cs =>
    if c.isWhitespace then
      match cs with
      | [] => [' ']
      | c2 :: _ => if c2.isWhitespace then squeezeWS cs else ' ' :: squeezeWS cs
    else c :: squeezeWS cs

/-- Strip a trailing version suffix matching the regex `v\d+$`. -/
def stripVersion (cs : List Char) : List Char :=
  let rcs := cs.reverse
  let digits := rcs.takeWhile Char.isDigit
  let rest := rcs.dropWhile Char.isDigit
  match digits, rest with
  | _ :: _, 'v' :: rest2 => rest2.reverse
  | _, _ => cs

/-- Strip the scheme+host of a doi.org link, the regex
`^https?:\/\/(dx\.)?doi\.org\//` of `normDOI`. -/
def stripDoiHost (cs : List Char) : List Char :=
  match dropLeading "https://doi.org/".data cs with
  | some r => r
  | none =>
    match dropLeading "http://doi.org/".data cs with
    | some r => r
    | none =>
      match dropLeading "https://dx.doi.org/".data cs with
      | some r => r
      | none =>
        match dropLeading "http://dx.doi.org/".data cs with
        | some r => r
        | none => cs

/-- Embedding of `normDOI` from the multisearch route: lowercase, trim, strip the doi.org
scheme/host; empty input (or empty result) gives `undefined`. -/
def normDOI (doi : Option String) : Option String :=
  match doi with
  | none => none
  | some s =>
    if s = "" then none
    else
      let d := (trimChars s.data).map Char.toLower
      let d2 := stripDoiHost d
      if d2.isEmpty then none else some (String.mk d2)

/-- Embedding of `normArxivId` from the multisearch route: lowercase, trim, strip a leading
`arxiv:` and a trailing version suffix `vN`. -/
def normArxivId (id : Option String) : Option String :=
  match id with
  | none => none
  | some s =>
    if s = "" then none
    else
      let t := (trimChars s.data).map Char.toLower
      let t2 := match dropLeading "arxiv:".data t with
        | some r => r
        | none => t
      let t3 := stripVersion t2
      if t3.isEmpty then none else some (String.mk t3)

/-- Embedding of `normTitle` from the multisearch route: lowercase, collapse whitespace,
strip characters outside `\w` and `\s`, trim. -/
def normTitle (t : String) : String :=
  let cs := t.data.map Char.toLower
  let cs2 := squeezeWS cs
  let cs3 := cs2.filter (fun c => isWordCharB c || c.isWhitespace)
  String.mk (trimChars cs3)

/-- The three literature sources of the multisearch route. -/
inductive Source where
  | crossref
  | arxiv
  | s2
deriving DecidableEq, Repr

/-- The `LitItem` record shape of the multisearch route. -/
structure LitItem where
  id : String
  source : Source
  title : String
  year : Option Int
  authors : List String
  abstract : Option String
  doi : Option String
  url : Option String
  citationCount : Option Nat
  externalIds : Option (List (String × String))
deriving DecidableEq, Repr

/-- Assoc-list lookup for the `externalIds` record. -/
def lookupStr : List (String × String) → String → Option String
  | [], _ => none
  | (k, v) :: rest, key => if k = key then some v else lookupStr rest key

/-- Value of `x.externalIds?.arXiv`, with `undefined` collapsed to `""`. -/
def arxivIdOf (x : LitItem) : String :=
  match x.externalIds with
  | none => ""
  | some l =>
    match lookupStr l "arXiv" with
    | some v => v
    | none => ""

/-- The `doi:` candidate key of `makeKey` (empty when `x.doi` is falsy). -/
def doiKeyOf (x : LitItem) : String :=
  match x.doi with
  | none => ""
  | some d => if d = "" then "" else "doi:" ++ d

/-- The `arxiv:` candidate key of `makeKey`. -/
def arxivKeyOf (x : LitItem) : String :=
  if arxivIdOf x = "" then "" else "arxiv:" ++ arxivIdOf x

/-- The `y:<year>` fragment of the title key (`x.year` truthy). -/
def yearTagOf (x : LitItem) : String :=
  match x.year with
  | none => ""
  | some y => if y = 0 then "" else "y:" ++ toString y

/-- Embedding of `makeKey` from `dedupeAndRank`: `doi || ax || t:<normTitle>|<y>`. -/
def makeKey (x : LitItem) : String :=
  orStr (doiKeyOf x) (orStr (arxivKeyOf x) ("t:" ++ normTitle x.title ++ "|" ++ yearTagOf x))

/-- The collision pick of `dedupeAndRank` (lines 265–272 of the route). -/
def pickRep (existing it : LitItem) : LitItem :=
  if it.citationCount.getD 0 > existing.citationCount.getD 0 then it
  else if strTruthy existing.abstract then existing
  else if strTruthy it.abstract then it
  else existing

/-- Insertion-ordered map from keys to representatives (JS `Map`). -/
abbrev KeyMap := List (String × LitItem)

/-- Lookup of the JS `Map.get`. -/
def mapGet : KeyMap → String → Option LitItem
  | [], _ => none
  | (k, v) :: rest, key => if k = key then some v else mapGet rest key

/-- Update of the JS `Map.set`: replace in place when the key exists, else append. -/
def mapSet : KeyMap → String → LitItem → KeyMap
  | [], key, v => [(key, v)]
  | (k, v0) :: rest, key, v =>
    if k = key then (k, v) :: rest else (k, v0) :: mapSet rest key v

/-- One iteration of the dedupe loop of `dedupeAndRank`. -/
def dedupeStep (m : KeyMap) (it : LitItem) : KeyMap :=
  if makeKey it = "" then m
  else
    match mapGet m (makeKey it) with
    | none => mapSet m (makeKey it) it
    | some existing => mapSet m (makeKey it) (pickRep existing it)

/-- The recency component of the ranking score:
`age = x.year ? nowYear - x.year : 10`, then `2 / 1 / 0` by age bracket. -/
def recencyOf (nowYear : Int) (year : Option Int) : Nat :=
  let age : Int := match year with
    | none => 10
    | some y => if y = 0 then 10 else nowYear - y
  if age ≤ 2 then 2 else if age ≤ 5 then 1 else 0

/-- Value of `x.citationCount ?? 0`. -/
def citOf (x : LitItem) : Nat := x.citationCount.getD 0

/-- Ten times the source nudge (`0.1` for Semantic Scholar). -/
def nudge10 (s : Source) : Nat :=
  match s with
  | .s2 => 1
  | _ => 0

/-- The ranking score of `dedupeAndRank`:
`log10(1 + max(0, c)) * 1.5 + recency + srcNudge`. -/
noncomputable def score (nowYear : Int) (x : LitItem) : ℝ :=
  Real.logb 10 (1 + max 0 (citOf x : ℝ)) * 1.5
    + (recencyOf nowYear x.year : ℝ)
    + (if x.source = Source.s2 then (0.1 : ℝ) else 0)

/-- An exact integer key that orders records identically to `score`
(the bridge is `score_le_iff_rankKey_le`): since
`score = logb 10 ((1+c)^15 * 10^(10*recency + nudge10)) / 10`,
comparing scores is comparing these natural numbers. -/
def rankKey (nowYear : Int) (x : LitItem) : Nat :=
  (1 + citOf x) ^ 15 * 10 ^ (10 * recencyOf nowYear x.year + nudge10 x.source)

/-- The sort order of `scored.sort((a, b) => b.score - a.score)`:
`a` may come before `b` iff `score b ≤ score a`. -/
def rankLe (nowYear : Int) (a b : LitItem) : Prop :=
  rankKey nowYear b ≤ rankKey nowYear a

instance (nowYear : Int) : DecidableRel (rankLe nowYear) := fun x y =>
  inferInstanceAs (Decidable (rankKey nowYear y ≤ rankKey nowYear x))

instance (nowYear : Int) : IsTotal LitItem (rankLe nowYear) :=
  ⟨fun a b => Nat.le_total (rankKey nowYear b) (rankKey nowYear a)⟩

instance (nowYear : Int) : IsTrans LitItem (rankLe nowYear) :=
  ⟨fun _ _ _ h1 h2 => Nat.le_trans h2 h1⟩

/-- Result record of `dedupeAndRank`: the merged set and the top-N slice. -/
structure RankResult where
  items : List LitItem
  top : List LitItem
deriving DecidableEq, Repr

/-- Embedding of `dedupeAndRank` from the multisearch route: group by `makeKey`, merge
collisions with `pickRep`, then stable-sort descending by score (JS
`Array.prototype.sort` is stable; the insertion sort below is the stable
sort on the exact order `rankLe`) and take the first `topN`. -/
def dedupeAndRank (items : List LitItem) (nowYear : Int) (topN : Nat) : RankResult :=
  let byKey := items.foldl dedupeStep []
  let merged := byKey.map Prod.snd
  let ranked := List.insertionSort (rankLe nowYear) merged
  ⟨merged, ranked.take topN⟩

/-- Response shape of the multisearch route (`json(data, status)`). -/
structure LitResp where
  status : Nat
  error : Option String
  items : List LitItem
  top : List LitItem
  warning : Option String
deriving DecidableEq, Repr

/-- The error message of a settled adapter call: `reason?.message` is the
message of a rejected promise and `undefined` (here `""`) of a fulfilled
one. -/
def settledMsg {α : Type} : Except String α → String
  | .error m => m
  | .ok _ => ""

/-- The record list of a settled adapter call (`[]` when rejected). -/
def settledItems {α : Type} : Except String (List α) → List α
  | .error _ => []
  | .ok l => l

/-- The `POST` handler of the multisearch route.  The three concurrent
adapter calls (`Promise.allSettled`) are modelled by passing their settled
outcomes `cr`, `ax`, `s2` as arguments; `bodyQuery` is `body?.query`. -/
def litMultisearchPOST (bodyQuery : Option String)
    (cr ax s2 : Except String (List LitItem)) (nowYear : Int) : LitResp :=
  let query := jsTrim (bodyQuery.getD "")
  if query = "" then ⟨400, some "Provide \"query\"", [], [], none⟩
  else
    let items := settledItems cr ++ settledItems ax ++ settledItems s2
    if items = [] then
      let err := orStr (settledMsg cr) (orStr (settledMsg ax) (orStr (settledMsg s2) "No results"))
      ⟨200, none, [], [], some err⟩
    else
      let r := dedupeAndRank items nowYear 12
      ⟨200, none, r.items, r.top, none⟩

/-- The fields of an `esummary` result object that `buildPaper` reads
(absent JSON fields are modelled by `""` / `[]`, matching the `|| ''` and
`Array.isArray` guards in the source). -/
structure PubmedSummary where
  title : String
  fulljournalname : String
  source : String
  authors : List String
  articleids : List (String × String)
  pubdate : String
deriving DecidableEq, Repr

/-- The `Paper` type of the PubMed route. -/
structure Paper where
  pmid : String
  title : String
  journal : String
  year : Option String
  authors : List String
  doi : Option String
  url : String
  abstract : Option String
deriving DecidableEq, Repr

/-- Response shape of the PubMed route. -/
structure PubmedResp where
  status : Nat
  error : Option String
  paper : Option Paper
deriving DecidableEq, Repr

/-- Try to match the regex `\b(19|20)\d{2}\b` at the head of `cs`, where
`prev` is the character just before `cs` (`none` at the start). -/
def yearHere (prev : Option Char) : List Char → Option String
  | c1 :: c2 :: c3 :: c4 :: rest =>
    let prevOk := match prev with
      | none => true
      | some p => !isWordCharB p
    let nextOk := match rest with
      | [] => true
      | r :: _ => !isWordCharB r
    if prevOk && ((c1 = '1' && c2 = '9') || (c1 = '2' && c2 = '0'))
        && c3.isDigit && c4.isDigit && nextOk then
      some (String.mk [c1, c2, c3, c4])
    else none
  | _ => none

/-- Leftmost match of `\b(19|20)\d{2}\b` (the `pubdate.match` call of
`buildPaper`). -/
def findYear (prev : Option Char) : List Char → Option String
  | [] => none
  | c :: cs =>
    match yearHere prev (c :: cs) with
    | some y => some y
    | none => findYear (some c) cs

/-- Embedding of `buildPaper` from the PubMed route. -/
def buildPaper (pmid : String) (s : PubmedSummary) (abstract : String) : Paper :=
  let authors := (s.authors.filter (fun a => a ≠ "")).take 20
  let doi := (s.articleids.find? (fun x => x.1.data.map Char.toLower = "doi".data)).map Prod.snd
  let year := findYear none s.pubdate.data
  { pmid := pmid
    title := s.title
    journal := orStr s.fulljournalname s.source
    year := year
    authors := authors
    doi := doi
    url := "https://pubmed.ncbi.nlm.nih.gov/" ++ pmid ++ "/"
    abstract := if abstract = "" then none else some abstract }

/-- The tail of the PubMed `POST` handler once a PMID is fixed: the
`esummary` and `efetch` calls and `buildPaper` (exceptions map to 500). -/
def pubmedFinish (pmid : String) (esummary : Except String PubmedSummary)
    (efetch : Except String String) : PubmedResp :=
  match esummary with
  | .error m => ⟨500, some (orStr m "Server error"), none⟩
  | .ok s =>
    match efetch with
    | .error m => ⟨500, some (orStr m "Server error"), none⟩
    | .ok ab => ⟨200, none, some (buildPaper pmid s ab)⟩

/-- The `POST` handler of the PubMed route.  `esearch` is the outcome of
`esearchFirstPMID` (only consulted when no pmid was supplied), `esummary`
and `efetch` the outcomes of the two E-utilities calls. -/
def pubmedPOST (bodyPmid bodyQuery : Option String)
    (esearch : Except String (Option String))
    (esummary : Except String PubmedSummary)
    (efetch : Except String String) : PubmedResp :=
  let pmidRaw := jsTrim (bodyPmid.getD "")
  let queryRaw := jsTrim (bodyQuery.getD "")
  if pmidRaw = "" then
    if queryRaw = "" then ⟨400, some "Provide \"pmid\" or \"query\"", none⟩
    else
      match esearch with
      | .error m => ⟨500, some (orStr m "Server error"), none⟩
      | .ok idOpt =>
        let pmid := idOpt.getD ""
        if pmid = "" then ⟨404, some ("No PubMed result for: " ++ queryRaw), none⟩
        else pubmedFinish pmid esummary efetch
  else pubmedFinish pmidRaw esummary efetch

/-- Embedding of `compactAuthors` from the workspace page: up to three names joined by
commas, `et al.` beyond. -/
def compactAuthors (a : List String) : String :=
  if a.length = 0 then ""
  else if a.length ≤ 3 then String.intercalate ", " a
  else String.intercalate ", " (a.take 3) ++ " et al."

/-- Value of `x.source.toUpperCase()` for the citation line. -/
def sourceUpper : Source → String
  | .crossref => "CROSSREF"
  | .arxiv => "ARXIV"
  | .s2 => "S2"

/-- Embedding of `mkCiteLine` from the workspace page. -/
def mkCiteLine (x : LitItem) (idx : Nat) : String :=
  let yr := match x.year with
    | none => ""
    | some y => if y = 0 then "" else " (" ++ toString y ++ ")"
  let src := sourceUpper x.source
  let doi := match x.doi with
    | none => ""
    | some d => if d = "" then "" else " — doi:" ++ d
  let url := match x.url with
    | none => ""
    | some u => if u = "" then "" else " " ++ u
  "#" ++ toString (idx + 1) ++ " " ++ x.title ++ yr ++ " — " ++ compactAuthors x.authors
    ++ " [" ++ src ++ "]" ++ doi ++ (if url = "" then "" else " — " ++ url)

/-- The abstract of one context block: trimmed and, above 1500 characters,
cut to 1500 characters plus an ellipsis. -/
def truncAbs (x : LitItem) : String :=
  let abs := trimChars (x.abstract.getD "").data
  if abs.length > 1500 then String.mk (abs.take 1500) ++ "…" else String.mk abs

/-- One block pushed onto `blocks` by `mkGeminiContext`. -/
def mkBlock (x : LitItem) (i : Nat) : String :=
  mkCiteLine x i ++ "\nAbstract: " ++ orStr (truncAbs x) "N/A"

/-- All blocks of `mkGeminiContext`, in input order. -/
def mkBlocks (items : List LitItem) : List String :=
  items.enum.map (fun p => mkBlock p.2 p.1)

/-- The accumulation loop of `mkGeminiContext`: stop (`break`) at the first
block whose addition would exceed `maxChars`. -/
def ctxAccum (maxChars : Nat) : List String → String → String
  | [], out => out
  | b :: bs, out =>
    if (out ++ "\n\n" ++ b).length > maxChars then out
    else ctxAccum maxChars bs (if out = "" then b else out ++ "\n\n" ++ b)

/-- Embedding of `mkGeminiContext` from the workspace page (the page calls it with the
default `maxChars = 12000`). -/
def mkGeminiContext (items : List LitItem) (maxChars : Nat) : String :=
  ctxAccum maxChars (mkBlocks items) ""

/-- Blocks joined by blank lines, the shape of the produced digest. -/
def joinSep (sep : String) : List String → String
  | [] => ""
  | [b] => b
  | b :: b2 :: bs => b ++ sep ++ joinSep sep (b2 :: bs)

/-! ### General lemmas -/

lemma append_ne_empty_left (s t : String) (h : s ≠ "") : s ++ t ≠ "" := by
  intro he
  apply h
  have hl := congrArg String.length he
  rw [String.length_append] at hl
  have : s.length = 0 := by
    simpa using Nat.eq_zero_of_add_eq_zero_right hl
  exact String.ext (by simpa [String.length] using List.length_eq_zero.mp this)

lemma orStr_eq_left {a b : String} (h : a ≠ "") : orStr a b = a := by
  simp [orStr, h]

lemma orStr_eq_right {a b : String} (h : a = "") : orStr a b = b := by
  simp [orStr, h]

lemma makeKey_ne_empty (x : LitItem) : makeKey x ≠ "" := by
  unfold makeKey orStr
  split
  · split
    · apply append_ne_empty_left
      apply append_ne_empty_left
      apply append_ne_empty_left
      decide
    · assumption
  · assumption

/-! ### Key-map machinery for the dedupe loop -/

/-- Invariant of the dedupe map: every stored pair is keyed by its value's
own `makeKey`, and keys are pairwise distinct. -/
def keyOk (m : KeyMap) : Prop :=
  (∀ p ∈ m, makeKey p.2 = p.1) ∧ (m.map Prod.fst).Nodup

lemma mapGet_eq_none {m : KeyMap} {k : String} :
    mapGet m k = none ↔ k ∉ m.map Prod.fst := by
  induction m with
  | nil => simp [mapGet]
  | cons p rest ih =>
    obtain ⟨k', v⟩ := p
    by_cases h : k' = k
    · subst h
      simp [mapGet]
    · rw [List.map_cons]
      simp only [mapGet, if_neg h, ih, List.mem_cons, not_or]
      constructor
      · intro hk
        exact ⟨fun he => h he.symm, hk⟩
      · intro hk
        exact hk.2

lemma mapGet_mem {m : KeyMap} {k : String} {v : LitItem}
    (h : mapGet m k = some v) : (k, v) ∈ m := by
  induction m with
  | nil => simp [mapGet] at h
  | cons p rest ih =>
    obtain ⟨k', v'⟩ := p
    by_cases hk : k' = k
    · simp [mapGet, hk] at h
      simp [hk, h]
    · simp only [mapGet, if_neg hk] at h
      exact List.mem_cons_of_mem _ (ih h)

lemma mapSet_of_not_mem {m : KeyMap} {k : String} (v : LitItem)
    (h : k ∉ m.map Prod.fst) : mapSet m k v = m ++ [(k, v)] := by
  induction m with
  | nil => simp [mapSet]
  | cons p rest ih =>
    obtain ⟨k', v'⟩ := p
    simp only [List.map_cons, List.mem_cons, not_or] at h
    simp [mapSet, Ne.symm h.1, ih h.2]

lemma map_fst_mapSet_of_mem {m : KeyMap} {k : String} (v : LitItem)
    (h : k ∈ m.map Prod.fst) : (mapSet m k v).map Prod.fst = m.map Prod.fst := by
  induction m with
  | nil => simp at h
  | cons p rest ih =>
    obtain ⟨k', v'⟩ := p
    by_cases hk : k' = k
    · simp [mapSet, hk]
    · simp only [List.map_cons, List.mem_cons] at h
      rcases h with h | h
      · exact absurd h.symm hk
      · simp [mapSet, hk, ih h]

lemma mem_mapSet {m : KeyMap} {k : String} {v : LitItem} {p : String × LitItem}
    (h : p ∈ mapSet m k v) : p ∈ m ∨ p = (k, v) := by
  induction m with
  | nil => simp [mapSet] at h; simp [h]
  | cons q rest ih =>
    obtain ⟨k', v'⟩ := q
    by_cases hk : k' = k
    · simp only [mapSet, if_pos hk] at h
      rcases List.mem_cons.mp h with h | h
      · right; rw [h, hk]
      · left; exact List.mem_cons_of_mem _ h
    · simp only [mapSet, if_neg hk] at h
      rcases List.mem_cons.mp h with h | h
      · left; simp [h]
      · rcases ih h with h | h
        · left; exact List.mem_cons_of_mem _ h
        · right; exact h

lemma pickRep_cases (e i : LitItem) : pickRep e i = e ∨ pickRep e i = i := by
  unfold pickRep
  split_ifs <;> simp

lemma keyOk_dedupeStep {m : KeyMap} (it : LitItem) (h : keyOk m) :
    keyOk (dedupeStep m it) := by
  unfold dedupeStep
  rw [if_neg (makeKey_ne_empty it)]
  cases hget : mapGet m (makeKey it) with
  | none =>
    rw [mapSet_of_not_mem it (mapGet_eq_none.mp hget)]
    constructor
    · intro p hp
      rcases List.mem_append.mp hp with h1 | h2
      · exact h.1 p h1
      · simp at h2; simp [h2]
    · rw [List.map_append]
      simp [List.nodup_append, h.2, mapGet_eq_none.mp hget]
  | some e =>
    have hmem := mapGet_mem hget
    have hkey : makeKey it ∈ m.map Prod.fst :=
      List.mem_map.mpr ⟨(makeKey it, e), hmem, rfl⟩
    constructor
    · intro p hp
      rcases mem_mapSet hp with h1 | h2
      · exact h.1 p h1
      · rw [h2]
        rcases pickRep_cases e it with hpick | hpick
        · rw [hpick]
          exact h.1 (makeKey it, e) hmem
        · rw [hpick]
    · rw [map_fst_mapSet_of_mem _ hkey]
      exact h.2

lemma keyOk_foldl (l : List LitItem) :
    ∀ m : KeyMap, keyOk m → keyOk (l.foldl dedupeStep m) := by
  induction l with
  | nil => intro m h; simpa using h
  | cons a l ih => intro m h; exact ih _ (keyOk_dedupeStep a h)

lemma key_mem_dedupeStep_self (m : KeyMap) (it : LitItem) :
    makeKey it ∈ (dedupeStep m it).map Prod.fst := by
  unfold dedupeStep
  rw [if_neg (makeKey_ne_empty it)]
  cases hget : mapGet m (makeKey it) with
  | none =>
    rw [mapSet_of_not_mem it (mapGet_eq_none.mp hget), List.map_append]
    simp
  | some e =>
    have hkey : makeKey it ∈ m.map Prod.fst :=
      List.mem_map.mpr ⟨(makeKey it, e), mapGet_mem hget, rfl⟩
    rw [map_fst_mapSet_of_mem _ hkey]
    exact hkey

lemma key_mem_dedupeStep_mono {m : KeyMap} {k : String}
    (h : k ∈ m.map Prod.fst) (it : LitItem) :
    k ∈ (dedupeStep m it).map Prod.fst := by
  unfold dedupeStep
  rw [if_neg (makeKey_ne_empty it)]
  cases hget : mapGet m (makeKey it) with
  | none =>
    rw [mapSet_of_not_mem it (mapGet_eq_none.mp hget), List.map_append]
    exact List.mem_append_left _ h
  | some e =>
    have hkey : makeKey it ∈ m.map Prod.fst :=
      List.mem_map.mpr ⟨(makeKey it, e), mapGet_mem hget, rfl⟩
    rw [map_fst_mapSet_of_mem _ hkey]
    exact h

lemma key_mem_foldl_mono (l : List LitItem) :
    ∀ {m : KeyMap} {k : String}, k ∈ m.map Prod.fst →
      k ∈ (l.foldl dedupeStep m).map Prod.fst := by
  induction l with
  | nil => intro m k h; simpa using h
  | cons a l ih => intro m k h; exact ih (key_mem_dedupeStep_mono h a)

lemma key_mem_foldl {l : List LitItem} {it : LitItem} (h : it ∈ l) :
    ∀ m : KeyMap, makeKey it ∈ (l.foldl dedupeStep m).map Prod.fst := by
  induction l with
  | nil => simp at h
  | cons a l ih =>
    intro m
    rcases List.mem_cons.mp h with h | h
    · subst h
      exact key_mem_foldl_mono l (key_mem_dedupeStep_self m it)
    · exact ih h _

lemma items_eq_map_snd (items : List LitItem) (nowYear : Int) (topN : Nat) :
    (dedupeAndRank items nowYear topN).items
      = (items.foldl dedupeStep []).map Prod.snd := rfl

/-! ### C2: identity-key priority (corrected: blank records are kept, not dropped) -/

/-- A record with a blank title and no identifiers. -/
def blankRec : LitItem :=
  ⟨"", .crossref, "", none, [], none, none, none, none, none⟩

/-- C2 counterexample: a record with blank title and no identifiers does NOT
get an empty key — its key is `"t:|"` — and it is kept in the deduplicated
output rather than dropped. -/
theorem C2_counterexample :
    makeKey blankRec = "t:|"
    ∧ (dedupeAndRank [blankRec] 2026 12).items = [blankRec] := by
  constructor
  · decide
  · decide

/-- C2 (amended): the identity key tries `doi:` then `arxiv:` then the
title key in priority order, the first non-empty candidate winning; but the
title key is never empty (it always carries the `t:` and `|` markers), so
`makeKey` never returns the empty string and no record is skipped — every
input record has a same-key representative in the output. -/
theorem C2_key_priority (items : List LitItem) (nowYear : Int) (topN : Nat)
    (it : LitItem) (h : it ∈ items) :
    makeKey it = (if doiKeyOf it ≠ "" then doiKeyOf it
      else if arxivKeyOf it ≠ "" then arxivKeyOf it
      else "t:" ++ normTitle it.title ++ "|" ++ yearTagOf it)
    ∧ makeKey it ≠ ""
    ∧ ∃ rep ∈ (dedupeAndRank items nowYear topN).items, makeKey rep = makeKey it := by
  refine ⟨?_, makeKey_ne_empty it, ?_⟩
  · unfold makeKey orStr
    split_ifs <;> simp_all
  · have hkey := key_mem_foldl h ([] : KeyMap)
    rcases List.mem_map.mp hkey with ⟨p, hp, hfst⟩
    have hok : keyOk (items.foldl dedupeStep []) :=
      keyOk_foldl items [] ⟨by simp, by simp⟩
    refine ⟨p.2, ?_, ?_⟩
    · rw [items_eq_map_snd]
      exact List.mem_map.mpr ⟨p, hp, rfl⟩
    · rw [hok.1 p hp, hfst]

/-- A concrete record with a DOI, for the C2 witness. -/
def w2Rec : LitItem :=
  ⟨"x", .crossref, "T", some 2020, [], none, some "10.1/x", none, some 3, none⟩

/-- Witness for C2 at a concrete one-record input. -/
theorem C2_key_priority_witness :
    w2Rec ∈ [w2Rec]
    ∧ (makeKey w2Rec = (if doiKeyOf w2Rec ≠ "" then doiKeyOf w2Rec
        else if arxivKeyOf w2Rec ≠ "" then arxivKeyOf w2Rec
        else "t:" ++ normTitle w2Rec.title ++ "|" ++ yearTagOf w2Rec)
      ∧ makeKey w2Rec ≠ ""
      ∧ ∃ rep ∈ (dedupeAndRank [w2Rec] 2026 12).items, makeKey rep = makeKey w2Rec) :=
  ⟨by decide, C2_key_priority [w2Rec] 2026 12 w2Rec (by decide)⟩

/-! ### C1: collision pick (corrected: abstract can beat a higher count) -/

/-- Stored representative: citation count 10, no abstract. -/
def cexE : LitItem :=
  ⟨"e", .crossref, "Same Title", some 2020, [], none, some "10.1/z", none, some 10, none⟩

/-- Incoming record: citation count 5, with an abstract, same DOI. -/
def cexI : LitItem :=
  ⟨"i", .s2, "Same Title", some 2020, [], some "An abstract", some "10.1/z", none, some 5, none⟩

/-- C1 counterexample: on a collision where the stored record has strictly
more citations but no abstract, the code picks the abstract-bearing record
with strictly FEWER citations, so the representative is not the record with
strictly higher `citationCount`. -/
theorem C1_counterexample :
    makeKey cexE = makeKey cexI
    ∧ cexI.citationCount.getD 0 < cexE.citationCount.getD 0
    ∧ (dedupeAndRank [cexE, cexI] 2026 12).items = [cexI] := by
  refine ⟨?_, ?_, ?_⟩ <;> decide

/-- C1 (amended): on a collision the incoming record replaces the stored one
iff it has strictly higher `citationCount`; otherwise the stored record is
kept when it has a non-empty abstract; otherwise the incoming record is
chosen when it has one; otherwise the stored record is kept.  (So abstract
presence, not citation count, decides whenever the incoming record does not
strictly beat the stored count.) -/
theorem C1_collision_pick (e i : LitItem) (nowYear : Int) (topN : Nat)
    (h : makeKey e = makeKey i) :
    (dedupeAndRank [e, i] nowYear topN).items
      = [if i.citationCount.getD 0 > e.citationCount.getD 0 then i
         else if strTruthy e.abstract then e
         else if strTruthy i.abstract then i
         else e] := by
  rw [items_eq_map_snd]
  have he := makeKey_ne_empty e
  have hi := makeKey_ne_empty i
  simp only [List.foldl]
  rw [show dedupeStep [] e = [(makeKey e, e)] by
    unfold dedupeStep
    rw [if_neg he]
    rfl]
  unfold dedupeStep
  rw [if_neg hi]
  simp only [mapGet, ← h, if_pos rfl, mapSet]
  simp [pickRep]

/-- Colliding pair for the C1 witness: tied counts, only the incoming
record has an abstract. -/
def w1aRec : LitItem :=
  ⟨"a", .crossref, "W", some 2021, [], none, some "10.1/w", none, some 2, none⟩

/-- See `w1aRec`. -/
def w1bRec : LitItem :=
  ⟨"b", .arxiv, "W", some 2021, [], some "Abs", some "10.1/w", none, some 2, none⟩

/-- Witness for C1 at a concrete colliding pair. -/
theorem C1_collision_pick_witness :
    makeKey w1aRec = makeKey w1bRec
    ∧ (dedupeAndRank [w1aRec, w1bRec] 2026 12).items
        = [if w1bRec.citationCount.getD 0 > w1aRec.citationCount.getD 0 then w1bRec
           else if strTruthy w1aRec.abstract then w1aRec
           else if strTruthy w1bRec.abstract then w1bRec
           else w1aRec] :=
  ⟨by decide, C1_collision_pick w1aRec w1bRec 2026 12 (by decide)⟩

/-! ### C4: idempotence of deduplication -/

lemma foldl_dedupeStep_values :
    ∀ (m acc : KeyMap), keyOk (acc ++ m) →
      List.foldl dedupeStep acc (m.map Prod.snd) = acc ++ m := by
  intro m
  induction m with
  | nil => intro acc _; simp
  | cons p m ih =>
    intro acc h
    obtain ⟨k, v⟩ := p
    have hkv : makeKey v = k := h.1 (k, v) (by simp)
    have hnotin : k ∉ acc.map Prod.fst := by
      have h2 := h.2
      rw [List.map_append, List.nodup_append] at h2
      intro hmem
      exact h2.2.2 hmem (by simp)
    have hstep : dedupeStep acc v = acc ++ [(k, v)] := by
      unfold dedupeStep
      rw [hkv, if_neg (hkv ▸ makeKey_ne_empty v),
        (mapGet_eq_none (k := k)).mpr hnotin, mapSet_of_not_mem v hnotin]
    simp only [List.map_cons, List.foldl_cons, hstep]
    rw [ih (acc ++ [(k, v)]) (by simpa using h)]
    simp

/-- C4: deduplication is idempotent — running the dedupe step on its own
output reproduces that output exactly (no further reduction). -/
theorem C4_dedupe_idempotent (items : List LitItem) (nowYear : Int) (topN : Nat) :
    (dedupeAndRank (dedupeAndRank items nowYear topN).items nowYear topN).items
      = (dedupeAndRank items nowYear topN).items := by
  rw [items_eq_map_snd items, items_eq_map_snd]
  have hok : keyOk (items.foldl dedupeStep []) :=
    keyOk_foldl items [] ⟨by simp, by simp⟩
  rw [foldl_dedupeStep_values (items.foldl dedupeStep []) [] (by simpa using hok)]
  simp

/-! ### The score bridge: the real-valued score and the integer rank key
order records identically -/

lemma rankKey_pos (nowYear : Int) (x : LitItem) : 0 < rankKey nowYear x := by
  unfold rankKey
  exact Nat.mul_pos (Nat.pos_pow_of_pos _ (by omega)) (Nat.pos_pow_of_pos _ (by norm_num))

lemma score_eq_logb (nowYear : Int) (x : LitItem) :
    score nowYear x = Real.logb 10 ((rankKey nowYear x : ℕ) : ℝ) / 10 := by
  unfold score rankKey
  rw [max_eq_right (Nat.cast_nonneg (citOf x))]
  push_cast
  rw [Real.logb_mul (by positivity) (by positivity), Real.logb_pow, Real.logb_pow,
    Real.logb_self_eq_one (by norm_num)]
  rcases hs : x.source <;> simp [nudge10, hs] <;> ring_nf

lemma score_le_iff (nowYear : Int) (a b : LitItem) :
    score nowYear a ≤ score nowYear b ↔ rankKey nowYear a ≤ rankKey nowYear b := by
  rw [score_eq_logb, score_eq_logb,
    div_le_div_iff_of_pos_right (by norm_num : (0:ℝ) < 10),
    Real.logb_le_logb (by norm_num)
      (by exact_mod_cast rankKey_pos nowYear a)
      (by exact_mod_cast rankKey_pos nowYear b)]
  exact_mod_cast Iff.rfl

lemma rankKey_lt_of_fields (nowYear : Int) {a b : LitItem}
    (hy : a.year = b.year) (hs : a.source = b.source)
    (hc : citOf b < citOf a) : rankKey nowYear b < rankKey nowYear a := by
  unfold rankKey
  rw [← hy, ← hs]
  rw [Nat.mul_lt_mul_right (Nat.pos_pow_of_pos _ (by norm_num))]
  exact Nat.pow_lt_pow_left (by omega) (by norm_num)

/-! ### C10: output invariants of dedupe-and-rank -/

lemma mem_snd_mapSet {m : KeyMap} {k : String} {v x : LitItem}
    (h : x ∈ (mapSet m k v).map Prod.snd) : x ∈ m.map Prod.snd ∨ x = v := by
  rcases List.mem_map.mp h with ⟨p, hp, hsnd⟩
  rcases mem_mapSet hp with h1 | h2
  · exact Or.inl (List.mem_map.mpr ⟨p, h1, hsnd⟩)
  · right
    rw [← hsnd, h2]

lemma mem_snd_dedupeStep {m : KeyMap} {it x : LitItem}
    (h : x ∈ (dedupeStep m it).map Prod.snd) : x ∈ m.map Prod.snd ∨ x = it := by
  revert h
  unfold dedupeStep
  rw [if_neg (makeKey_ne_empty it)]
  cases hget : mapGet m (makeKey it) with
  | none =>
    intro h
    exact mem_snd_mapSet h
  | some e =>
    intro h
    rcases mem_snd_mapSet h with h | h
    · exact Or.inl h
    · rcases pickRep_cases e it with hp | hp
      · left
        rw [h, hp]
        exact List.mem_map.mpr ⟨(makeKey it, e), mapGet_mem hget, rfl⟩
      · right
        rw [h, hp]

lemma mem_snd_foldl (l : List LitItem) :
    ∀ (m : KeyMap) (x : LitItem), x ∈ (List.foldl dedupeStep m l).map Prod.snd →
      x ∈ m.map Prod.snd ∨ x ∈ l := by
  induction l with
  | nil =>
    intro m x h
    exact Or.inl (by simpa using h)
  | cons a l ih =>
    intro m x h
    rcases ih _ x h with h1 | h2
    · rcases mem_snd_dedupeStep h1 with h3 | h4
      · exact Or.inl h3
      · exact Or.inr (by simp [h4])
    · exact Or.inr (List.mem_cons_of_mem _ h2)

lemma top_eq_take (items : List LitItem) (nowYear : Int) (topN : Nat) :
    (dedupeAndRank items nowYear topN).top
      = (List.insertionSort (rankLe nowYear)
          (dedupeAndRank items nowYear topN).items).take topN := rfl

/-- C10: the dedupe-and-rank step fabricates nothing — every merged and
every top record is one of the input records unchanged — `top` has at most
`topN` elements, and `top` is the `topN`-prefix of the merged records
arranged in descending `score` order. -/
theorem C10_output_invariants (items : List LitItem) (nowYear : Int) (topN : Nat) :
    (∀ x ∈ (dedupeAndRank items nowYear topN).items, x ∈ items)
    ∧ (∀ x ∈ (dedupeAndRank items nowYear topN).top, x ∈ items)
    ∧ (dedupeAndRank items nowYear topN).top.length ≤ topN
    ∧ ∃ ranked : List LitItem,
        ranked.Perm (dedupeAndRank items nowYear topN).items
        ∧ ranked.Pairwise (fun a b => score nowYear b ≤ score nowYear a)
        ∧ (dedupeAndRank items nowYear topN).top = ranked.take topN := by
  have hitems : ∀ x ∈ (dedupeAndRank items nowYear topN).items, x ∈ items := by
    intro x hx
    rw [items_eq_map_snd] at hx
    rcases mem_snd_foldl items [] x hx with h | h
    · simp at h
    · exact h
  refine ⟨hitems, ?_, ?_, ?_⟩
  · intro x hx
    rw [top_eq_take] at hx
    exact hitems x ((List.mem_insertionSort (rankLe nowYear)).mp (List.take_subset _ _ hx))
  · rw [top_eq_take]
    exact List.length_take_le _ _
  · refine ⟨List.insertionSort (rankLe nowYear) (dedupeAndRank items nowYear topN).items,
      List.perm_insertionSort _ _, ?_, top_eq_take items nowYear topN⟩
    have hs := List.sorted_insertionSort (rankLe nowYear)
      (dedupeAndRank items nowYear topN).items
    exact hs.imp (fun hab => (score_le_iff nowYear _ _).mpr hab)

/-- Witness for C10 at a concrete one-record input. -/
theorem C10_output_invariants_witness :
    w1aRec ∈ (dedupeAndRank [w1aRec] 2026 12).items ∧ w1aRec ∈ [w1aRec] :=
  ⟨by decide, (C10_output_invariants [w1aRec] 2026 12).1 w1aRec (by decide)⟩

/-! ### C5: ranking is monotone in citation count -/

/-- C5: among records identical but for citation count (same year, source,
abstract), the more-cited one never appears later in the ranked output: if
the less-cited `b` sits at position `i` of `top` and the more-cited `a` at
position `j`, then `j < i`. -/
theorem C5_rank_monotone (items : List LitItem) (nowYear : Int) (topN : Nat)
    (a b : LitItem) (hy : a.year = b.year) (hs : a.source = b.source)
    (hab : a.abstract = b.abstract)
    (hc : b.citationCount.getD 0 < a.citationCount.getD 0)
    (i j : Nat)
    (hi : (dedupeAndRank items nowYear topN).top[i]? = some b)
    (hj : (dedupeAndRank items nowYear topN).top[j]? = some a) :
    j < i := by
  have hkey : rankKey nowYear b < rankKey nowYear a :=
    rankKey_lt_of_fields nowYear hy hs hc
  rw [top_eq_take] at hi hj
  set ranked := List.insertionSort (rankLe nowYear)
    (dedupeAndRank items nowYear topN).items with hranked
  have hi' : ranked[i]? = some b := by
    rcases Nat.lt_or_ge i topN with h | h
    · rwa [List.getElem?_take_of_lt h] at hi
    · rw [List.getElem?_take_eq_none h] at hi
      exact absurd hi (by simp)
  have hj' : ranked[j]? = some a := by
    rcases Nat.lt_or_ge j topN with h | h
    · rwa [List.getElem?_take_of_lt h] at hj
    · rw [List.getElem?_take_eq_none h] at hj
      exact absurd hj (by simp)
  rcases List.getElem?_eq_some_iff.mp hi' with ⟨hilen, hib⟩
  rcases List.getElem?_eq_some_iff.mp hj' with ⟨hjlen, hja⟩
  have hsorted : ranked.Pairwise (rankLe nowYear) :=
    List.sorted_insertionSort (rankLe nowYear) _
  rcases Nat.lt_trichotomy j i with h | h | h
  · exact h
  · exfalso
    subst h
    rw [hi'] at hj'
    have hba : b = a := Option.some.inj hj'
    rw [hba] at hc
    exact absurd hc (lt_irrefl _)
  · exfalso
    have := (List.pairwise_iff_getElem.mp hsorted) i j hilen hjlen h
    rw [hib, hja] at this
    exact absurd hkey (not_lt.mpr this)

/-- Records for the C5 witness: identical shape, counts 100 vs 1,
distinct titles so both survive deduplication. -/
def w5aRec : LitItem :=
  ⟨"a5", .crossref, "aa", none, [], none, none, none, some 100, none⟩

/-- See `w5aRec`. -/
def w5bRec : LitItem :=
  ⟨"b5", .crossref, "bb", none, [], none, none, none, some 1, none⟩

/-- Witness for C5: with the less-cited record first in the input, the
ranked top lists the more-cited one first. -/
theorem C5_rank_monotone_witness :
    (dedupeAndRank [w5bRec, w5aRec] 2026 12).top[1]? = some w5bRec
    ∧ (dedupeAndRank [w5bRec, w5aRec] 2026 12).top[0]? = some w5aRec
    ∧ w5bRec.citationCount.getD 0 < w5aRec.citationCount.getD 0
    ∧ (0 : Nat) < 1 :=
  ⟨by decide, by decide, by decide,
    C5_rank_monotone [w5bRec, w5aRec] 2026 12 w5aRec w5bRec rfl rfl rfl
      (by decide) 1 0 (by decide) (by decide)⟩

/-! ### C9: the synthesis context digest is size-bounded -/

/-- The fold step of the context loop (`out += (out ? sep : '') + b`). -/
def glueStep (o b : String) : String := if o = "" then b else o ++ "\n\n" ++ b

/-- Accumulated output after gluing a list of blocks onto `out`. -/
def glueFrom (out : String) (bs : List String) : String := bs.foldl glueStep out

lemma ctxAccum_length_le (maxChars : Nat) (bs : List String) :
    ∀ out : String, out.length ≤ maxChars →
      (ctxAccum maxChars bs out).length ≤ maxChars := by
  induction bs with
  | nil => intro out h; simpa [ctxAccum] using h
  | cons b bs ih =>
    intro out h
    unfold ctxAccum
    split
    · exact h
    · rename_i hgt
      have hle : (out ++ "\n\n" ++ b).length ≤ maxChars := Nat.not_lt.mp hgt
      apply ih
      by_cases ho : out = ""
      · rw [if_pos ho]
        rw [ho] at hle
        simp [String.length_append] at hle ⊢
        omega
      · rwa [if_neg ho]

lemma ctxAccum_spec (maxChars : Nat) :
    ∀ (bs : List String) (out : String),
      ∃ k, k ≤ bs.length
        ∧ ctxAccum maxChars bs out = glueFrom out (bs.take k)
        ∧ ∀ h : k < bs.length,
            (glueFrom out (bs.take k) ++ "\n\n" ++ bs[k]).length > maxChars := by
  intro bs
  induction bs with
  | nil =>
    intro out
    exact ⟨0, le_refl _, rfl, fun h => absurd h (by simp)⟩
  | cons b bs ih =>
    intro out
    by_cases hgt : (out ++ "\n\n" ++ b).length > maxChars
    · refine ⟨0, Nat.zero_le _, ?_, ?_⟩
      · unfold ctxAccum
        rw [if_pos hgt]
        rfl
      · intro _
        simpa [glueFrom] using hgt
    · obtain ⟨k, hk, heq, hbound⟩ := ih (glueStep out b)
      refine ⟨k + 1, by simpa using hk, ?_, ?_⟩
      · unfold ctxAccum
        rw [if_neg hgt]
        rw [List.take_succ_cons, glueFrom, List.foldl_cons]
        exact heq
      · intro h
        have h2 : k < bs.length := by simpa using h
        have := hbound h2
        rw [List.take_succ_cons, glueFrom, List.foldl_cons, List.getElem_cons_succ]
        exact this

lemma glueFrom_eq_joinSep :
    ∀ (bs : List String) (out : String), out ≠ "" →
      glueFrom out bs = joinSep "\n\n" (out :: bs) := by
  intro bs
  induction bs with
  | nil => intro out _; rfl
  | cons b bs ih =>
    intro out hout
    rw [glueFrom, List.foldl_cons]
    have hstep : glueStep out b = out ++ "\n\n" ++ b := if_neg hout
    have hne : out ++ "\n\n" ++ b ≠ "" :=
      append_ne_empty_left _ _ (append_ne_empty_left _ _ hout)
    rw [show (List.foldl glueStep (glueStep out b) bs : String)
        = glueFrom (glueStep out b) bs from rfl, hstep, ih _ hne]
    cases bs with
    | nil => rfl
    | cons b2 bs2 =>
      show (out ++ "\n\n" ++ b) ++ "\n\n" ++ joinSep "\n\n" (b2 :: bs2)
        = out ++ "\n\n" ++ joinSep "\n\n" (b :: b2 :: bs2)
      rw [show joinSep "\n\n" (b :: b2 :: bs2)
          = b ++ "\n\n" ++ joinSep "\n\n" (b2 :: bs2) from rfl]
      simp [String.append_assoc]

lemma glueFrom_empty_eq_joinSep (bs : List String) (hbs : ∀ b ∈ bs, b ≠ "") :
    glueFrom "" bs = joinSep "\n\n" bs := by
  cases bs with
  | nil => rfl
  | cons b bs =>
    rw [glueFrom, List.foldl_cons]
    have hstep : glueStep "" b = b := if_pos rfl
    rw [show (List.foldl glueStep (glueStep "" b) bs : String)
        = glueFrom (glueStep "" b) bs from rfl, hstep]
    exact glueFrom_eq_joinSep bs b (hbs b (by simp))

lemma ne_empty_of_length_pos {s : String} (h : 0 < s.length) : s ≠ "" := by
  intro he
  rw [he] at h
  simp at h

lemma mkCiteLine_ne_empty (x : LitItem) (i : Nat) : mkCiteLine x i ≠ "" := by
  apply ne_empty_of_length_pos
  simp only [mkCiteLine, String.length_append]
  have : ("#" : String).length = 1 := by decide
  omega

lemma mkBlock_ne_empty (x : LitItem) (i : Nat) : mkBlock x i ≠ "" := by
  unfold mkBlock
  apply append_ne_empty_left
  apply append_ne_empty_left
  exact mkCiteLine_ne_empty x i

lemma mkBlocks_ne_empty (items : List LitItem) :
    ∀ b ∈ mkBlocks items, b ≠ "" := by
  intro b hb
  rcases List.mem_map.mp hb with ⟨p, _, hp⟩
  rw [← hp]
  exact mkBlock_ne_empty p.2 p.1

lemma truncAbs_length_le (x : LitItem) : (truncAbs x).length ≤ 1501 := by
  simp only [truncAbs]
  split
  · rw [String.length_append, String.length_mk]
    have h1 : ((trimChars (x.abstract.getD "").data).take 1500).length ≤ 1500 :=
      List.length_take_le _ _
    have h2 : ("…" : String).length = 1 := by decide
    omega
  · rename_i hle
    simp only [Nat.not_lt, String.length_mk] at hle ⊢
    omega

/-- C9: the digest never exceeds the 12000-character budget, every included
abstract is cut to at most 1500 characters plus one ellipsis character, and
the output is exactly the blocks of a prefix of the records joined in
order — the loop stops at the first block whose addition would exceed the
budget. -/
theorem C9_context_bounded (items : List LitItem) :
    (mkGeminiContext items 12000).length ≤ 12000
    ∧ (∀ x ∈ items, (truncAbs x).length ≤ 1501)
    ∧ ∃ k, k ≤ (mkBlocks items).length
        ∧ mkGeminiContext items 12000 = joinSep "\n\n" ((mkBlocks items).take k)
        ∧ ∀ h : k < (mkBlocks items).length,
            (joinSep "\n\n" ((mkBlocks items).take k) ++ "\n\n"
              ++ (mkBlocks items)[k]).length > 12000 := by
  refine ⟨?_, fun x _ => truncAbs_length_le x, ?_⟩
  · exact ctxAccum_length_le 12000 (mkBlocks items) "" (by simp)
  · obtain ⟨k, hk, heq, hbound⟩ := ctxAccum_spec 12000 (mkBlocks items) ""
    have hne : ∀ b ∈ (mkBlocks items).take k, b ≠ "" :=
      fun b hb => mkBlocks_ne_empty items b (List.take_subset _ _ hb)
    have hglue := glueFrom_empty_eq_joinSep _ hne
    refine ⟨k, hk, ?_, ?_⟩
    · rw [mkGeminiContext, heq, hglue]
    · intro h
      rw [← hglue]
      exact hbound h

/-- Witness for C9 at a concrete one-record input. -/
theorem C9_context_bounded_witness :
    w2Rec ∈ [w2Rec] ∧ (truncAbs w2Rec).length ≤ 1501 :=
  ⟨by decide, (C9_context_bounded [w2Rec]).2.1 w2Rec (by decide)⟩

/-! ### C8: PubMed single-paper route error handling -/

/-- C8: the PubMed route answers 400 when neither `pmid` nor `query` is
supplied, 404 when a free-text query finds no PubMed hit, and when a
non-blank `pmid` is supplied it takes priority — the response does not
depend on the query or on the `esearch` outcome at all. -/
theorem C8_pubmed_errors :
    (∀ (es : Except String (Option String)) (sm : Except String PubmedSummary)
        (ef : Except String String),
      (pubmedPOST none none es sm ef).status = 400
        ∧ (pubmedPOST none none es sm ef).error = some "Provide \"pmid\" or \"query\"")
    ∧ (∀ (q : String) (sm : Except String PubmedSummary) (ef : Except String String),
        jsTrim q ≠ "" →
          (pubmedPOST none (some q) (.ok none) sm ef).status = 404
          ∧ (pubmedPOST none (some q) (.ok none) sm ef).error
              = some ("No PubMed result for: " ++ jsTrim q))
    ∧ (∀ (p : String) (q q2 : Option String)
        (es es2 : Except String (Option String))
        (sm : Except String PubmedSummary) (ef : Except String String),
        jsTrim p ≠ "" →
          pubmedPOST (some p) q es sm ef = pubmedPOST (some p) q2 es2 sm ef) := by
  have h0 : jsTrim ((none : Option String).getD "") = "" := by decide
  have h1 : jsTrim "" = "" := by decide
  refine ⟨?_, ?_, ?_⟩
  · intro es sm ef
    constructor <;> simp [pubmedPOST, h0, h1]
  · intro q sm ef hq
    constructor <;> simp [pubmedPOST, h0, h1, hq]
  · intro p q q2 es es2 sm ef hp
    simp [pubmedPOST, hp]

/-- Witness for C8 at a concrete query with an empty esearch result. -/
theorem C8_pubmed_errors_witness :
    jsTrim "gene" ≠ ""
    ∧ ((pubmedPOST none (some "gene") (.ok none)
          (.ok ⟨"", "", "", [], [], ""⟩) (.ok "")).status = 404
      ∧ (pubmedPOST none (some "gene") (.ok none)
          (.ok ⟨"", "", "", [], [], ""⟩) (.ok "")).error
          = some ("No PubMed result for: " ++ jsTrim "gene")) :=
  ⟨by decide,
    C8_pubmed_errors.2.1 "gene" (.ok ⟨"", "", "", [], [], ""⟩) (.ok "") (by decide)⟩

/-! ### C7: normalizer equations -/

/-- C7: `normDOI` lowercases, strips the doi.org scheme/host, and returns
`undefined` for empty input; `normArxivId` strips the case-insensitive
`arXiv:` marker and a trailing version suffix. -/
theorem C7_normalizers :
    normDOI (some "https://doi.org/10.1/ABC") = some "10.1/abc"
    ∧ normDOI (some "") = none
    ∧ normDOI none = none
    ∧ normArxivId (some "arXiv:1234.5678v3") = some "1234.5678" := by
  refine ⟨?_, ?_, ?_, ?_⟩ <;> decide

/-! ### C6: recency boundary cases -/

/-- C6: a record from two years ago scores recency 2, three years ago 1,
six years ago 0, and a missing year is penalized to age 10 and scores 0
(for any present-day `nowYear`, so the year values involved are nonzero). -/
theorem C6_recency_boundaries (nowYear : Int) (h : 6 < nowYear) :
    recencyOf nowYear (some (nowYear - 2)) = 2
    ∧ recencyOf nowYear (some (nowYear - 3)) = 1
    ∧ recencyOf nowYear (some (nowYear - 6)) = 0
    ∧ recencyOf nowYear none = 0 := by
  have h2 : nowYear - 2 ≠ 0 := by omega
  have h3 : nowYear - 3 ≠ 0 := by omega
  have h6 : nowYear - 6 ≠ 0 := by omega
  refine ⟨?_, ?_, ?_, ?_⟩ <;> simp only [recencyOf, h2, h3, h6, if_false, if_neg] <;>
    split_ifs <;> omega

/-- Witness for C6 at the concrete year 2026. -/
theorem C6_recency_boundaries_witness :
    (6 : Int) < 2026
    ∧ (recencyOf 2026 (some (2026 - 2)) = 2
      ∧ recencyOf 2026 (some (2026 - 3)) = 1
      ∧ recencyOf 2026 (some (2026 - 6)) = 0
      ∧ recencyOf 2026 none = 0) :=
  ⟨by decide, C6_recency_boundaries 2026 (by decide)⟩

/-! ### C3: aggregation failure policy -/

/-- C3: for a non-blank query the multisearch route stays well-formed when
all three adapters fail — it answers 200 with empty `items` and `top` and
the first failure's (non-empty) message as `warning` — and it answers 400
exactly when the query is blank after trimming. -/
theorem C3_total_failure (q : Option String) (nowYear : Int) :
    (∀ mc ma ms : String, jsTrim (q.getD "") ≠ "" → mc ≠ "" →
      litMultisearchPOST q (.error mc) (.error ma) (.error ms) nowYear
        = ⟨200, none, [], [], some mc⟩)
    ∧ ∀ cr ax s2 : Except String (List LitItem),
        ((litMultisearchPOST q cr ax s2 nowYear).status = 400
          ↔ jsTrim (q.getD "") = "") := by
  constructor
  · intro mc ma ms hq hmc
    simp only [litMultisearchPOST, if_neg hq, settledItems, List.append_nil,
      settledMsg, if_true]
    rw [orStr_eq_left hmc]
  · intro cr ax s2
    by_cases hq : jsTrim (q.getD "") = ""
    · simp [litMultisearchPOST, hq]
    · simp only [litMultisearchPOST, if_neg hq]
      split <;> simp [hq]

/-- Witness for C3 with concrete failing adapters and a concrete blank query. -/
theorem C3_total_failure_witness :
    jsTrim ((some "ai").getD "") ≠ "" ∧ "boom" ≠ ""
    ∧ litMultisearchPOST (some "ai")
        (.error "boom") (.error "x") (.error "y") 2026
        = ⟨200, none, [], [], some "boom"⟩
    ∧ ((litMultisearchPOST none (.ok []) (.ok []) (.ok []) 2026).status = 400
        ↔ jsTrim ((none : Option String).getD "") = "") :=
  ⟨by decide, by decide,
    (C3_total_failure (some "ai") 2026).1 "boom" "x" "y" (by decide) (by decide),
    (C3_total_failure none 2026).2 (.ok []) (.ok []) (.ok [])⟩

